import Mathlib

/-!
Verification of the data-cleaning script `src/data/make_dataset.py` of the
Adverse-Food-Events-Analysis repository.  The script's two decision-bearing
functions (`brand_preprocess`, `age_preprocess`) and the CSV aggregation loop
of `main` are embedded shallowly below; numeric ages are modelled as exact
rationals, missing pandas values (`NaN` / `pd.NA`) as `Option.none`, and a
raised Python exception as `Option.none` at the result type.
-/

namespace MakeDataset

/-- One dataframe row as consumed by `age_preprocess`: the `patient_age` and
`age_units` fields, each possibly missing (`pd.isna`). -/
structure AgeRow where
  patient_age : Option ℚ
  age_units : Option String
deriving DecidableEq, Repr

/-- The `age_conv` dictionary of `age_preprocess` (lines 68-74).  The keys are
the exact string literals of the source; note the capital letter of
"Decade(s)" against the lowercase of the other four keys. -/
def age_conv : List (String × ℚ) :=
  [("month(s)", 1/12), ("year(s)", 1), ("day(s)", 1/365),
   ("Decade(s)", 10), ("week(s)", 1/52)]

/-- Python's `round(q, 4)`.  CPython rounds half to even, but no entry of
`age_conv` scaled by 10^4 lands on a half, so round-half-up agrees with the
source on every value this script rounds. -/
def pyRound4 (q : ℚ) : ℚ := (round (q * 10000) : ℚ) / 10000

/-- The body of `age_preprocess` (lines 76-81): missing value or unit gives
the sentinel -1; otherwise the value is multiplied by the rounded conversion
factor, and an unknown unit raises `KeyError` (modelled as `none`). -/
def age_preprocess (row : AgeRow) : Option ℚ :=
  match row.patient_age, row.age_units with
  | some age, some unit => (List.lookup unit age_conv).map (fun f => age * pyRound4 f)
  | _, _ => some (-1)

/-- Python's `string.punctuation`, the 32 ASCII characters removed from the
product name on line 28-29 (braces and the apostrophe written as escapes). -/
def pyPunctuation : List Char :=
  "!\"#$%&\x27()*+,-./:;<=>?@[\\]^_\x60\x7b|\x7d~".data

/-- The NLTK English stop-word list, the value of `stopwords.words("english")`
consulted on line 34 (apostrophes written as the escape \x27). -/
def nltk_stopwords : List String :=
  ["i", "me", "my", "myself", "we", "our", "ours", "ourselves", "you",
   "you\x27re", "you\x27ve", "you\x27ll", "you\x27d", "your", "yours",
   "yourself", "yourselves", "he", "him", "his", "himself", "she",
   "she\x27s", "her", "hers", "herself", "it", "it\x27s", "its", "itself",
   "they", "them", "their", "theirs", "themselves", "what", "which", "who",
   "whom", "this", "that", "that\x27ll", "these", "those", "am", "is",
   "are", "was", "were", "be", "been", "being", "have", "has", "had",
   "having", "do", "does", "did", "doing", "a", "an", "the", "and", "but",
   "if", "or", "because", "as", "until", "while", "of", "at", "by", "for",
   "with", "about", "against", "between", "into", "through", "during",
   "before", "after", "above", "below", "to", "from", "up", "down", "in",
   "out", "on", "off", "over", "under", "again", "further", "then", "once",
   "here", "there", "when", "where", "why", "how", "all", "any", "both",
   "each", "few", "more", "most", "other", "some", "such", "no", "nor",
   "not", "only", "own", "same", "so", "than", "too", "very", "s", "t",
   "can", "will", "just", "don", "don\x27t", "should", "should\x27ve",
   "now", "d", "ll", "m", "o", "re", "ve", "y", "ain", "aren",
   "aren\x27t", "couldn", "couldn\x27t", "didn", "didn\x27t", "doesn",
   "doesn\x27t", "hadn", "hadn\x27t", "hasn", "hasn\x27t", "haven",
   "haven\x27t", "isn", "isn\x27t", "ma", "mightn", "mightn\x27t",
   "mustn", "mustn\x27t", "needn", "needn\x27t", "shan", "shan\x27t",
   "shouldn", "shouldn\x27t", "wasn", "wasn\x27t", "weren", "weren\x27t",
   "won", "won\x27t", "wouldn", "wouldn\x27t"]

/-- Line 29: `regexPunctuation.sub("", row["product"])`, deleting every
`string.punctuation` character. -/
def removePunct (s : String) : String :=
  ⟨s.data.filter (fun c => decide (c ∉ pyPunctuation))⟩

/-- Python `str.lower()` on the ASCII letters, as applied on line 33.
`Char.toLower` is exactly CPython's ASCII case map. -/
def pyLower (s : String) : String := ⟨s.data.map Char.toLower⟩

/-- Python `str.upper()` on the ASCII letters, as applied on line 32. -/
def pyUpper (s : String) : String := ⟨s.data.map Char.toUpper⟩

/-- Python `s.split(" ")` on a list of characters: single-character
separator, empty pieces kept, `"".split(" ") == [""]`. -/
def splitSpaceAux : List Char → List (List Char)
  | [] => [[]]
  | c :: cs =>
    if c = ' ' then [] :: splitSpaceAux cs
    else
      match splitSpaceAux cs with
      | t :: ts => (c :: t) :: ts
      | [] => [[c]]

/-- Python `s.split(" ")` (line 33). -/
def pySplitSpace (s : String) : List String :=
  (splitSpaceAux s.data).map (fun l => ⟨l⟩)

/-- Python `" ".join(xs)` on lists of characters. -/
def joinSpaceAux : List (List Char) → List Char
  | [] => []
  | [x] => x
  | x :: xs => x ++ ' ' :: joinSpaceAux xs

/-- Python `" ".join(xs)` (lines 46-48). -/
def pyJoinSpace (xs : List String) : String := ⟨joinSpaceAux (xs.map String.data)⟩

/-- The `nameList` comprehension of lines 31-35: strip punctuation,
lowercase, split on single spaces, drop NLTK English stop-words, upper-case
what remains. -/
def brand_tokens (product : String) : List String :=
  ((pySplitSpace (pyLower (removePunct product))).filter
      (fun t => decide (t ∉ nltk_stopwords))).map pyUpper

/-- Python `str.islower()` on a single ASCII character: is it one of the
letters a-z?  Used to state the case invariant of the brand strings. -/
def pyIsLower (c : Char) : Bool := decide (97 ≤ c.toNat ∧ c.toNat ≤ 122)

/-- The two category labels of lines 41-44 that select the trim-length
behaviour. -/
def specialCategories : List String :=
  ["Nuts/Edible Seed", "Vit/Min/Prot/Unconv Diet(Human/Animal)"]

/-- One dataframe row as consumed by `brand_preprocess`: the `product` and
`category` fields, each possibly missing. -/
structure BrandRow where
  product : Option String
  category : Option String
deriving DecidableEq, Repr

/-- The membership test `row["category"] in [...]` of lines 41-44: a missing
category (`NaN` from `read_csv`) compares unequal to both strings. -/
def category_special (c : Option String) : Bool :=
  match c with
  | some s => specialCategories.contains s
  | none => false

/-- The body of `brand_preprocess` (lines 25-50).  The guard on line 25
reads `pd.isna(row["product"])` twice — it never inspects the category — so
only a missing product yields `pd.NA` (`none`). -/
def brand_preprocess (row : BrandRow) (trim_len : Nat) : Option String :=
  match row.product with
  | none => none
  | some p =>
    let nameList := brand_tokens p
    if nameList = [] then some ""
    else if category_special row.category then
      some (if nameList.length < trim_len then pyJoinSpace nameList
            else pyJoinSpace (nameList.take trim_len))
    else some (nameList.headD "")

/-- The default `trim_len=2` of the signature on line 11, the value used by
the `aggReports.apply(brand_preprocess, axis=1)` call on line 129. -/
def brand_preprocess_default (row : BrandRow) : Option String :=
  brand_preprocess row 2

/-- One CSV table as read by `pd.read_csv` in `main`: a header of column
names and a list of rows of string cells. -/
structure Table where
  cols : List String
  rows : List (List String)
deriving DecidableEq, Repr

/-- Python `x.replace(" ", "_")` for the single-character pattern used on
line 111: every space becomes an underscore. -/
def pyReplaceSpaceUnderscore (s : String) : String :=
  ⟨s.data.map (fun c => if c = ' ' then '_' else c)⟩

/-- The `column_map` renaming of line 111: `x.lower().replace(" ", "_")`. -/
def normalize_col (s : String) : String := pyReplaceSpaceUnderscore (pyLower s)

/-- The second rename of lines 113-115. -/
def meddra_fix (c : String) : String :=
  if c = "meddra_preferred_terms" then "medra_preferred_terms" else c

/-- The `strip_str` helper of lines 84-87; every cell is modelled as a
string, on which it is Python `str.strip()`: leading and trailing
whitespace removed. -/
def strip_str (x : String) : String :=
  ⟨((x.data.dropWhile Char.isWhitespace).reverse.dropWhile
      Char.isWhitespace).reverse⟩

/-- The per-file processing of lines 109-116: rename columns, fix the
meddra column name, strip every cell. -/
def process_file (t : Table) : Table :=
  { cols := (t.cols.map normalize_col).map meddra_fix,
    rows := t.rows.map (fun r => r.map strip_str) }

/-- `pd.concat([a, b])` restricted to the same-shaped frames this script
feeds it: rows of `b` are appended after rows of `a`. -/
def concat_tables (a b : Table) : Table := ⟨a.cols, a.rows ++ b.rows⟩

/-- Line 118 of the loop body: the first file becomes `aggReports`, later
files are concatenated onto it. -/
def aggregate_step (acc : Option Table) (t : Table) : Option Table :=
  match acc with
  | none => some (process_file t)
  | some a => some (concat_tables a (process_file t))

/-- The aggregation loop of lines 105-120: `aggReports` starts as `None`,
each file is processed and concatenated, and the `rename` on line 120
dereferences `aggReports`, which raises `AttributeError` (modelled `none`)
when no `*.csv` file was found. -/
def aggregate (files : List Table) : Option Table :=
  files.foldl aggregate_step none

end MakeDataset

namespace MakeDataset

lemma age_conv_lookup_mem (u : String) (f : ℚ)
    (h : List.lookup u age_conv = some f) :
    f = 1/12 ∨ f = 1 ∨ f = 1/365 ∨ f = 10 ∨ f = 1/52 := by
  simp only [age_conv, List.lookup] at h
  repeat' split at h
  all_goals simp_all

lemma pyRound4_pos_of_lookup (u : String) (f : ℚ)
    (h : List.lookup u age_conv = some f) : 0 < pyRound4 f := by
  rcases age_conv_lookup_mem u f h with h' | h' | h' | h' | h' <;>
    subst h' <;> norm_num [pyRound4, round_eq]

end MakeDataset

namespace MakeDataset

/-- Claim C1 (counterexample): the factor table has no lowercase
"decade(s)" key — the lookup raises `KeyError` (none) instead of producing
the claimed `5 * 10`. -/
theorem age_lowercase_decade_fails :
    age_preprocess ⟨some 5, some "decade(s)"⟩ = none ∧
      age_preprocess ⟨some 5, some "decade(s)"⟩ ≠ some (5 * 10) := by
  constructor
  · decide
  · decide

/-- Claim C1 (amended): for a present value and a unit that is a key of the
code's table — "month(s)", "year(s)", "day(s)", capitalised "Decade(s)",
"week(s)" — the normalizer returns the value times the factor rounded to 4
decimal places: 0.0833, 1, 0.0027, 10 and 0.0192 respectively. -/
theorem age_known_units (v : ℚ) :
    age_preprocess ⟨some v, some "month(s)"⟩ = some (v * (833/10000)) ∧
    age_preprocess ⟨some v, some "year(s)"⟩ = some (v * 1) ∧
    age_preprocess ⟨some v, some "day(s)"⟩ = some (v * (27/10000)) ∧
    age_preprocess ⟨some v, some "Decade(s)"⟩ = some (v * 10) ∧
    age_preprocess ⟨some v, some "week(s)"⟩ = some (v * (192/10000)) := by
  refine ⟨?_, ?_, ?_, ?_, ?_⟩ <;>
    simp [age_preprocess, age_conv, List.lookup, pyRound4] <;>
    norm_num [round_eq]

/-- Claim C2 (counterexample): with value -1 and unit "year(s)" both
present, the normalizer returns -1, the sentinel itself — so a present
input does not guarantee a non-sentinel result. -/
theorem age_sentinel_collision :
    age_preprocess ⟨some (-1), some "year(s)"⟩ = some (-1) := by
  simp [age_preprocess, age_conv, List.lookup, pyRound4]

/-- Claim C2 (amended): a missing value or unit yields the sentinel -1, and
a present value with a known unit yields the converted product — which can
itself coincide with the sentinel for negative values. -/
theorem age_sentinel_cases (row : AgeRow) :
    ((row.patient_age = none ∨ row.age_units = none) →
      age_preprocess row = some (-1)) ∧
    (∀ v u f, row.patient_age = some v → row.age_units = some u →
      List.lookup u age_conv = some f →
      age_preprocess row = some (v * pyRound4 f)) := by
  obtain ⟨pa, au⟩ := row
  constructor
  · rintro (h | h) <;> subst h
    · rfl
    · cases pa <;> rfl
  · rintro v u f h1 h2 h3
    simp only at h1 h2
    subst h1; subst h2
    simp [age_preprocess, h3]

/-- Claim C2 (witness): the two branches of `age_sentinel_cases` at
concrete rows. -/
theorem age_sentinel_cases_witness :
    age_preprocess ⟨none, some "year(s)"⟩ = some (-1) ∧
    age_preprocess ⟨some 2, some "year(s)"⟩ = some (2 * pyRound4 1) :=
  ⟨(age_sentinel_cases ⟨none, some "year(s)"⟩).1 (Or.inl rfl),
   (age_sentinel_cases ⟨some 2, some "year(s)"⟩).2 2 "year(s)" 1 rfl rfl (by decide)⟩

/-- Claim C3 (counterexample): the unit label "decade(s)" of the claimed
set is not a key of `age_conv`, so the lookup fails (a `KeyError`) instead
of completing. -/
theorem age_decade_case_error :
    age_preprocess ⟨some 1, some "decade(s)"⟩ = none := by decide

/-- Claim C3 (amended): with a present value and a unit label drawn from
the code's key set — with "Decade(s)" capitalised — the normalizer
completes without error. -/
theorem age_total_on_table_units (v : ℚ) (u : String)
    (h : u ∈ ["month(s)", "year(s)", "day(s)", "Decade(s)", "week(s)"]) :
    (age_preprocess ⟨some v, some u⟩).isSome = true := by
  fin_cases h <;> simp [age_preprocess, age_conv, List.lookup]

/-- Claim C3 (witness): the amended theorem applied at value 7 and unit
"day(s)". -/
theorem age_total_on_table_units_witness :
    (age_preprocess ⟨some 7, some "day(s)"⟩).isSome = true :=
  age_total_on_table_units 7 "day(s)" (by decide)

/-- Claim C10: a present non-negative value with a known unit converts to a
non-negative number, never the sentinel -1 — the sentinel is produced only
by the missing-input branch. -/
theorem age_nonneg (v : ℚ) (u : String) (f : ℚ) (hv : 0 ≤ v)
    (h : List.lookup u age_conv = some f) :
    ∃ r, age_preprocess ⟨some v, some u⟩ = some r ∧ 0 ≤ r ∧
      age_preprocess ⟨some v, some u⟩ ≠ some (-1) := by
  have hpos := pyRound4_pos_of_lookup u f h
  have heq : age_preprocess ⟨some v, some u⟩ = some (v * pyRound4 f) := by
    simp [age_preprocess, h]
  refine ⟨v * pyRound4 f, heq, mul_nonneg hv hpos.le, ?_⟩
  rw [heq]
  intro hc
  have : v * pyRound4 f = -1 := by exact Option.some.inj hc
  nlinarith [mul_nonneg hv hpos.le]

/-- Claim C10 (witness): the theorem applied at value 3 and unit
"week(s)". -/
theorem age_nonneg_witness :
    ∃ r, age_preprocess ⟨some 3, some "week(s)"⟩ = some r ∧ 0 ≤ r ∧
      age_preprocess ⟨some 3, some "week(s)"⟩ ≠ some (-1) :=
  age_nonneg 3 "week(s)" (1/52) (by norm_num) (by simp [age_conv, List.lookup])

/-- Claim C4: for a present product the extractor pipelines
punctuation-stripping, lowering, splitting, stop-word removal and
upper-casing into `brand_tokens`; a special category yields the space-join
of the first `min(tokens, trim_len)` tokens, any other category the first
token alone. -/
theorem brand_functional (row : BrandRow) (t : Nat) (p : String)
    (h : row.product = some p) :
    (category_special row.category = true →
      brand_preprocess row t = some (pyJoinSpace ((brand_tokens p).take t))) ∧
    (category_special row.category = false → brand_tokens p ≠ [] →
      brand_preprocess row t = some ((brand_tokens p).headD "")) := by
  obtain ⟨prod, cat⟩ := row
  dsimp only at h
  subst h
  constructor
  · intro hcat
    by_cases hnil : brand_tokens p = []
    · simp [brand_preprocess, hnil, hcat, pyJoinSpace, joinSpaceAux]
    · by_cases hlen : (brand_tokens p).length < t
      · have htake : (brand_tokens p).take t = brand_tokens p :=
          List.take_of_length_le hlen.le
        simp [brand_preprocess, hnil, hcat, hlen, htake]
      · simp [brand_preprocess, hnil, hcat, hlen]
  · intro hcat hnil
    simp [brand_preprocess, hnil, hcat]

/-- Claim C4 (witness): a special-category product keeps two tokens, a
plain-category product keeps one. -/
theorem brand_functional_witness :
    brand_preprocess ⟨some "great value peanut butter", some "Nuts/Edible Seed"⟩ 2
        = some "GREAT VALUE" ∧
    brand_preprocess ⟨some "planters dry roasted peanuts", some "Soup"⟩ 2
        = some "PLANTERS" := by
  constructor
  · have h := (brand_functional ⟨some "great value peanut butter",
      some "Nuts/Edible Seed"⟩ 2 "great value peanut butter" rfl).1 (by decide)
    rw [h]; decide
  · have h := (brand_functional ⟨some "planters dry roasted peanuts",
      some "Soup"⟩ 2 "planters dry roasted peanuts" rfl).2 (by decide) (by decide)
    rw [h]; decide

/-- Claim C5: a missing product short-circuits to the missing marker
before any token processing, and a present product whose tokens all get
filtered away yields the empty string. -/
theorem brand_empty_and_missing (row : BrandRow) (t : Nat) :
    (row.product = none → brand_preprocess row t = none) ∧
    (∀ p, row.product = some p → brand_tokens p = [] →
      brand_preprocess row t = some "") := by
  obtain ⟨prod, cat⟩ := row
  constructor
  · intro h
    dsimp only at h
    subst h
    rfl
  · intro p h hnil
    dsimp only at h
    subst h
    simp [brand_preprocess, hnil]

/-- Claim C5 (witness): a missing product and a stop-word-only product at
concrete rows. -/
theorem brand_empty_and_missing_witness :
    brand_preprocess ⟨none, some "Soup"⟩ 2 = none ∧
    brand_preprocess ⟨some "the", some "Soup"⟩ 2 = some "" :=
  ⟨(brand_empty_and_missing ⟨none, some "Soup"⟩ 2).1 rfl,
   (brand_empty_and_missing ⟨some "the", some "Soup"⟩ 2).2 "the" rfl (by decide)⟩

/-- Claim C6 (code bug): the guard on line 25 tests the product twice and
never the category, so a present product with a missing category still
produces the brand string "PEANUT" — the code contradicts the stated
invariant that both fields must be non-empty to compute a brand. -/
theorem brand_missing_category_still_brands :
    brand_preprocess ⟨some "peanut butter", none⟩ 2 = some "PEANUT" := by decide

/-- Claim C7: the brand result depends only on the product and category
fields (and the trim length) — equal inputs give equal outputs. -/
theorem brand_deterministic (r1 r2 : BrandRow) (t : Nat)
    (h1 : r1.product = r2.product) (h2 : r1.category = r2.category) :
    brand_preprocess r1 t = brand_preprocess r2 t := by
  obtain ⟨p1, c1⟩ := r1
  obtain ⟨p2, c2⟩ := r2
  dsimp only at h1 h2
  subst h1
  subst h2
  rfl

/-- Claim C7 (witness): the determinism theorem applied at two equal
concrete rows. -/
theorem brand_deterministic_witness :
    brand_preprocess ⟨some "corn flakes", some "Cereal"⟩ 2 =
      brand_preprocess ⟨some "corn flakes", some "Cereal"⟩ 2 :=
  brand_deterministic ⟨some "corn flakes", some "Cereal"⟩
    ⟨some "corn flakes", some "Cereal"⟩ 2 rfl rfl

lemma aggregate_step_loop (a : Table) (ts : List Table) :
    ts.foldl aggregate_step (some a) =
      some ⟨a.cols, a.rows ++ (ts.map (fun t => (process_file t).rows)).flatten⟩ := by
  induction ts generalizing a with
  | nil => simp
  | cons t rest ih =>
    simp only [List.foldl_cons, aggregate_step, List.map_cons, List.flatten_cons]
    rw [ih]
    simp [concat_tables]

/-- Claim C8 (counterexample): with zero CSV files the loop never assigns
`aggReports`, and the rename on line 120 dereferences `None` — no merged
table is produced. -/
theorem aggregate_empty_input_fails : aggregate [] = none := rfl

/-- Claim C8 (amended): for one or more input files the pass yields one
table whose columns are the first file's columns lowercased with spaces
replaced by underscores (and the meddra column-name fix applied, cells
stripped), and whose rows are the per-file rows concatenated in read
order. -/
theorem aggregate_nonempty_concat (ts : List Table) (h : ts ≠ []) :
    aggregate ts = some ⟨((ts.headD ⟨[], []⟩).cols.map normalize_col).map meddra_fix,
      (ts.map (fun t => (process_file t).rows)).flatten⟩ := by
  cases ts with
  | nil => exact absurd rfl h
  | cons t rest =>
    simp only [aggregate, List.foldl_cons, aggregate_step]
    rw [aggregate_step_loop]
    simp [process_file]

/-- Claim C8 (witness): two one-column files merge into a single table with
the normalized column name, stripped cells and both rows in order. -/
theorem aggregate_nonempty_concat_witness :
    aggregate [⟨["Report ID"], [[" x "]]⟩, ⟨["Report ID"], [["y"]]⟩] =
      some ⟨["report_id"], [["x"], ["y"]]⟩ := by
  have h := aggregate_nonempty_concat
    [⟨["Report ID"], [[" x "]]⟩, ⟨["Report ID"], [["y"]]⟩] (by simp)
  rw [h]
  decide

lemma toNat_ofNat_sub (m : Nat) (h1 : 97 ≤ m) (h2 : m ≤ 122) :
    (Char.ofNat (m - 32)).toNat = m - 32 := by
  interval_cases m <;> decide

lemma toNat_ofNat_add (m : Nat) (h1 : 65 ≤ m) (h2 : m ≤ 90) :
    (Char.ofNat (m + 32)).toNat = m + 32 := by
  interval_cases m <;> decide

lemma punct_not_upper_range :
    ∀ d ∈ pyPunctuation, ¬(65 ≤ d.toNat ∧ d.toNat ≤ 90) := by decide

lemma punct_not_lower_range :
    ∀ d ∈ pyPunctuation, ¬(97 ≤ d.toNat ∧ d.toNat ≤ 122) := by decide

lemma pyIsLower_toUpper (c : Char) : pyIsLower (Char.toUpper c) = false := by
  simp only [Char.toUpper, pyIsLower]
  split
  · next h =>
    rw [toNat_ofNat_sub c.toNat h.1 h.2]
    simp only [decide_eq_false_iff_not]
    omega
  · next h =>
    simp only [decide_eq_false_iff_not]
    intro hc
    exact h ⟨hc.1, hc.2⟩

lemma toUpper_not_punct (c : Char) (h : c ∉ pyPunctuation) :
    Char.toUpper c ∉ pyPunctuation := by
  simp only [Char.toUpper]
  split
  · next hc =>
    intro hmem
    have hb := punct_not_upper_range _ hmem
    rw [toNat_ofNat_sub c.toNat hc.1 hc.2] at hb
    omega
  · next hc => exact h

lemma toLower_not_punct (c : Char) (h : c ∉ pyPunctuation) :
    Char.toLower c ∉ pyPunctuation := by
  simp only [Char.toLower]
  split
  · next hc =>
    intro hmem
    have hb := punct_not_lower_range _ hmem
    rw [toNat_ofNat_add c.toNat hc.1 hc.2] at hb
    omega
  · next hc => exact h

lemma mem_splitSpaceAux (cs : List Char) :
    ∀ l ∈ splitSpaceAux cs, ∀ c ∈ l, c ∈ cs := by
  induction cs with
  | nil =>
    intro l hl c hc
    simp [splitSpaceAux] at hl
    subst hl
    simp at hc
  | cons d ds ih =>
    intro l hl c hc
    simp only [splitSpaceAux] at hl
    by_cases hd : d = ' '
    · rw [if_pos hd] at hl
      rcases List.mem_cons.mp hl with rfl | hl'
      · simp at hc
      · exact List.mem_cons_of_mem _ (ih l hl' c hc)
    · rw [if_neg hd] at hl
      cases hsplit : splitSpaceAux ds with
      | nil =>
        rw [hsplit] at hl
        rcases List.mem_cons.mp hl with rfl | hl'
        · rcases List.mem_cons.mp hc with rfl | hc'
          · exact List.mem_cons_self _ _
          · simp at hc'
        · simp at hl'
      | cons u us =>
        rw [hsplit] at hl
        rcases List.mem_cons.mp hl with rfl | hl'
        · rcases List.mem_cons.mp hc with rfl | hc'
          · exact List.mem_cons_self _ _
          · have hu : u ∈ splitSpaceAux ds := by
              rw [hsplit]; exact List.mem_cons_self _ _
            exact List.mem_cons_of_mem _ (ih u hu c hc')
        · have hm : l ∈ splitSpaceAux ds := by
            rw [hsplit]; exact List.mem_cons_of_mem _ hl'
          exact List.mem_cons_of_mem _ (ih l hm c hc)

lemma mem_joinSpaceAux (ls : List (List Char)) (c : Char)
    (hc : c ∈ joinSpaceAux ls) : c = ' ' ∨ ∃ l ∈ ls, c ∈ l := by
  induction ls with
  | nil => simp [joinSpaceAux] at hc
  | cons x xs ih =>
    cases xs with
    | nil =>
      simp only [joinSpaceAux] at hc
      exact Or.inr ⟨x, List.mem_cons_self _ _, hc⟩
    | cons y ys =>
      simp only [joinSpaceAux] at hc
      rcases List.mem_append.mp hc with h | h
      · exact Or.inr ⟨x, List.mem_cons_self _ _, h⟩
      · rcases List.mem_cons.mp h with rfl | h'
        · exact Or.inl rfl
        · rcases ih h' with h'' | ⟨l, hl, hcl⟩
          · exact Or.inl h''
          · exact Or.inr ⟨l, List.mem_cons_of_mem _ hl, hcl⟩

lemma brand_tokens_chars (p : String) (tok : String)
    (htok : tok ∈ brand_tokens p) (c : Char) (hc : c ∈ tok.data) :
    pyIsLower c = false ∧ c ∉ pyPunctuation := by
  unfold brand_tokens at htok
  rcases List.mem_map.mp htok with ⟨t, ht, rfl⟩
  rcases List.mem_map.mp (show c ∈ t.data.map Char.toUpper from hc)
    with ⟨c0, hc0, rfl⟩
  have ht' : t ∈ pySplitSpace (pyLower (removePunct p)) :=
    (List.mem_filter.mp ht).1
  refine ⟨pyIsLower_toUpper c0, toUpper_not_punct c0 ?_⟩
  rcases List.mem_map.mp
      (show t ∈ (splitSpaceAux (pyLower (removePunct p)).data).map
        (fun l => (⟨l⟩ : String)) from ht') with ⟨l, hl, rfl⟩
  have hmem : c0 ∈ (pyLower (removePunct p)).data :=
    mem_splitSpaceAux _ l hl c0 hc0
  rcases List.mem_map.mp
      (show c0 ∈ (removePunct p).data.map Char.toLower from hmem)
    with ⟨c1, hc1, rfl⟩
  refine toLower_not_punct c1 ?_
  exact of_decide_eq_true (List.mem_filter.mp
    (show c1 ∈ p.data.filter (fun c => decide (c ∉ pyPunctuation)) from hc1)).2

lemma join_tokens_chars (p : String) (l : List String)
    (hsub : ∀ x ∈ l, x ∈ brand_tokens p) (c : Char)
    (hc : c ∈ (pyJoinSpace l).data) :
    pyIsLower c = false ∧ c ∉ pyPunctuation := by
  rcases mem_joinSpaceAux (l.map String.data) c
      (show c ∈ joinSpaceAux (l.map String.data) from hc) with h | ⟨ld, hld, hcl⟩
  · subst h
    exact ⟨by decide, by decide⟩
  · rcases List.mem_map.mp hld with ⟨x, hx, rfl⟩
    exact brand_tokens_chars p x (hsub x hx) c hcl

lemma headD_mem_of_ne_nil (l : List String) (h : l ≠ []) : l.headD "" ∈ l := by
  cases l with
  | nil => exact absurd rfl h
  | cons x xs => exact List.mem_cons_self _ _

/-- Claim C9: any non-missing brand string the extractor produces contains
no `string.punctuation` character and no lowercase ASCII letter — it is a
space-join of upper-cased, punctuation-free tokens or the empty string. -/
theorem brand_chars_invariant (row : BrandRow) (t : Nat) (p : String)
    (hp : row.product = some p) (s : String)
    (hs : brand_preprocess row t = some s) :
    ∀ c ∈ s.data, pyIsLower c = false ∧ c ∉ pyPunctuation := by
  obtain ⟨prod, cat⟩ := row
  dsimp only at hp
  subst hp
  intro c hc
  by_cases hnil : brand_tokens p = []
  · have hs2 : s = "" := by
      simp [brand_preprocess, hnil] at hs
      exact hs.symm
    subst hs2
    simp at hc
  · by_cases hcat : category_special cat = true
    · by_cases hlen : (brand_tokens p).length < t
      · have hs2 : pyJoinSpace (brand_tokens p) = s := by
          simpa [brand_preprocess, hnil, hcat, hlen] using hs
        rw [← hs2] at hc
        exact join_tokens_chars p (brand_tokens p) (fun x hx => hx) c hc
      · have hs2 : pyJoinSpace ((brand_tokens p).take t) = s := by
          simpa [brand_preprocess, hnil, hcat, hlen] using hs
        rw [← hs2] at hc
        exact join_tokens_chars p ((brand_tokens p).take t)
          (fun x hx => List.take_subset t _ hx) c hc
    · have hs2 : (brand_tokens p).headD "" = s := by
        simpa [brand_preprocess, hnil, hcat] using hs
      rw [← hs2] at hc
      exact brand_tokens_chars p _ (headD_mem_of_ne_nil _ hnil) c hc

/-- Claim C9 (witness): the invariant theorem applied to the concrete brand
"GREAT" at its first character. -/
theorem brand_chars_invariant_witness :
    pyIsLower 'G' = false ∧ 'G' ∉ pyPunctuation :=
  brand_chars_invariant ⟨some "great value", some "Soup"⟩ 2 "great value" rfl
    "GREAT" (by decide) 'G' (by decide)

end MakeDataset

